import Mathlib

/-!
Verification development for the snapshot cache (watch registry) of the
configuration-distribution core, and for the `SampleSnapshot.WithVersion`
helper of its test suite.

The data model (`Resources`, `Snapshot`, `SampleSnapshot.WithVersion`) is a
shallow embedding of the Go source. The cache implementation itself
(`NewSnapshotCache`, `SetSnapshot`, `CreateWatch`, `Fetch`, `ClearSnapshot`,
`GetSnapshot`, `GetStatusInfo`, `GetStatusKeys`) is not part of the given
sources — only its test suite is — so those operations are modelled from the
specification, with explicit state passing in place of the locked shared
state, and one-element `Option` channels in place of capacity-1 Go channels.
Delivery of responses is made explicit: `SetSnapshot` returns the list of
(watch id, response) pairs it delivered.
-/

/-- The fixed, enumerable set of resource categories (xDS type URLs):
endpoints, clusters, routes, listeners, secrets, runtime settings. -/
inductive ResponseType
  | EndpointType
  | ClusterType
  | RouteType
  | ListenerType
  | SecretType
  | RuntimeType
  deriving DecidableEq, Repr, Fintype

/-- A versioned collection of named resources for one category
(`cache.Resources`: a version string plus a name-indexed item map,
rendered as an association list of name/body pairs). -/
structure Resources where
  Version : String
  Items : List (String × String)
  deriving DecidableEq, Repr

/-- A snapshot: one `Resources` collection per category
(`cache.Snapshot` with its six fields). -/
structure Snapshot where
  Endpoints : Resources
  Clusters : Resources
  Routes : Resources
  Listeners : Resources
  Secrets : Resources
  Runtimes : Resources
  deriving DecidableEq, Repr

/-- The collection a snapshot holds for a category. -/
def Snapshot.GetResources (s : Snapshot) (typ : ResponseType) : Resources :=
  match typ with
  | .EndpointType => s.Endpoints
  | .ClusterType => s.Clusters
  | .RouteType => s.Routes
  | .ListenerType => s.Listeners
  | .SecretType => s.Secrets
  | .RuntimeType => s.Runtimes

/-- The version a snapshot holds for a category. -/
def Snapshot.GetVersion (s : Snapshot) (typ : ResponseType) : String :=
  (s.GetResources typ).Version

/-- `SampleSnapshot.WithVersion` from the test suite: returns the receiver
unchanged when the category already carries the requested version, and
otherwise rebuilds the snapshot replacing exactly that category's collection
with one holding the new version over the same items. -/
def SampleSnapshot.WithVersion (s : Snapshot) (typ : ResponseType) (version : String) : Snapshot :=
  if s.GetVersion typ = version then s
  else
    match typ with
    | .EndpointType => { s with Endpoints := { Version := version, Items := s.Endpoints.Items } }
    | .ClusterType => { s with Clusters := { Version := version, Items := s.Clusters.Items } }
    | .RouteType => { s with Routes := { Version := version, Items := s.Routes.Items } }
    | .ListenerType => { s with Listeners := { Version := version, Items := s.Listeners.Items } }
    | .SecretType => { s with Secrets := { Version := version, Items := s.Secrets.Items } }
    | .RuntimeType => { s with Runtimes := { Version := version, Items := s.Runtimes.Items } }

/-- A response delivered to a resolved watch or returned by fetch:
the category, the snapshot's version for it, and the (possibly
name-filtered) resources. -/
structure Response where
  typ : ResponseType
  Version : String
  Resources : List (String × String)
  deriving DecidableEq, Repr

/-- A subscription request / parked watch: category, requested resource
names (empty means all), and the version the subscriber already knows. -/
structure Watch where
  typ : ResponseType
  resourceNames : List String
  knownVersion : String
  deriving DecidableEq, Repr

/-- Modelled from the spec: the resolution rule of the snapshot cache, whose
implementation is not among the given sources. Given a request and a
candidate snapshot: if the snapshot's version for the category equals the
known version, do not resolve; otherwise, with an empty name set resolve
with all items; with a non-empty name set resolve with the name-filtered
items if any name matches, and do not resolve if none does. -/
def respond (s : Snapshot) (typ : ResponseType) (names : List String) (knownVersion : String) :
    Option Response :=
  if s.GetVersion typ = knownVersion then none
  else if names.isEmpty then some ⟨typ, s.GetVersion typ, (s.GetResources typ).Items⟩
  else if ((s.GetResources typ).Items.filter (fun it => names.contains it.1)).isEmpty then none
  else some ⟨typ, s.GetVersion typ, (s.GetResources typ).Items.filter (fun it => names.contains it.1)⟩

/-- The resolution rule applied to a parked watch. -/
def Watch.respondTo (s : Snapshot) (w : Watch) : Option Response :=
  respond s w.typ w.resourceNames w.knownVersion

/-- Modelled from the spec: the mutable per-group record of the cache —
current snapshot (absent until first set) and the set of pending watches,
each tagged with its identifier. -/
structure GroupState where
  snapshot : Option Snapshot
  watches : List (Nat × Watch)
  deriving DecidableEq, Repr

/-- Modelled from the spec: the whole cache state — the key-to-group-state
map (an association list) plus the next fresh watch identifier. -/
structure SnapshotCache where
  groups : List (String × GroupState)
  nextWatchID : Nat
  deriving DecidableEq, Repr

/-- Modelled from the spec: a fresh, empty snapshot cache. -/
def NewSnapshotCache : SnapshotCache := ⟨[], 0⟩

/-- Insert or replace the group state stored for a key. -/
def setGroup : List (String × GroupState) → String → GroupState → List (String × GroupState)
  | [], key, g => [(key, g)]
  | (k, g0) :: rest, key, g =>
    if k = key then (key, g) :: rest else (k, g0) :: setGroup rest key g

/-- Remove the group state stored for a key. -/
def removeGroup (gs : List (String × GroupState)) (key : String) : List (String × GroupState) :=
  gs.filter (fun kg => kg.1 != key)

/-- The group state for a key, defaulting to an empty one. -/
def SnapshotCache.groupOf (c : SnapshotCache) (key : String) : GroupState :=
  (c.groups.lookup key).getD ⟨none, []⟩

/-- The pending watches parked on a key. -/
def SnapshotCache.pendingWatches (c : SnapshotCache) (key : String) : List (Nat × Watch) :=
  (c.groupOf key).watches

/-- Modelled from the spec: `GetSnapshot` — the current snapshot for a key,
or a not-found condition (`none`) if no snapshot was ever set, even when the
group state exists because watches were created on it. -/
def SnapshotCache.GetSnapshot (c : SnapshotCache) (key : String) : Option Snapshot :=
  (c.groupOf key).snapshot

/-- Modelled from the spec: `SetSnapshot` — replaces (or creates) the
group's snapshot and re-evaluates the resolution rule for every pending
watch on the key: resolved watches are delivered (returned as id/response
pairs) and removed; unresolved watches remain parked unchanged. -/
def SnapshotCache.SetSnapshot (c : SnapshotCache) (key : String) (s : Snapshot) :
    SnapshotCache × List (Nat × Response) :=
  (⟨setGroup c.groups key
      ⟨some s, (c.groupOf key).watches.filter (fun iw => (Watch.respondTo s iw.2).isNone)⟩,
    c.nextWatchID⟩,
   (c.groupOf key).watches.filterMap
     (fun iw => (Watch.respondTo s iw.2).map (fun r => (iw.1, r))))

/-- The response a new watch receives immediately: the resolution rule
against the current snapshot when one exists, nothing otherwise. -/
def immediateResponse (g : GroupState) (w : Watch) : Option Response :=
  match g.snapshot with
  | none => none
  | some s => Watch.respondTo s w

/-- Modelled from the spec: `CreateWatch` — lazily creates the group state,
evaluates the resolution rule against the current snapshot, and either
pre-loads the returned capacity-1 channel (the `Option Response`) without
registering the watch, or parks the watch under a fresh identifier with an
empty channel. -/
def SnapshotCache.CreateWatch (c : SnapshotCache) (key : String) (w : Watch) :
    SnapshotCache × Option Response × Nat :=
  match immediateResponse (c.groupOf key) w with
  | some r => (⟨setGroup c.groups key (c.groupOf key), c.nextWatchID + 1⟩, some r, c.nextWatchID)
  | none =>
    (⟨setGroup c.groups key
        ⟨(c.groupOf key).snapshot, (c.groupOf key).watches ++ [(c.nextWatchID, w)]⟩,
      c.nextWatchID + 1⟩,
     none, c.nextWatchID)

/-- Modelled from the spec: the cancel function handed out by `CreateWatch` —
removes the watch with the given identifier from the key's pending set;
cancelling an absent watch leaves the cache unchanged. -/
def SnapshotCache.CancelWatch (c : SnapshotCache) (key : String) (id : Nat) : SnapshotCache :=
  match c.groups.lookup key with
  | none => c
  | some g =>
    ⟨setGroup c.groups key ⟨g.snapshot, g.watches.filter (fun iw => iw.1 != id)⟩, c.nextWatchID⟩

/-- The three distinguished outcomes of `Fetch`: a response, a not-found
condition for a key with no snapshot, or a no-update signal when the
resolution rule does not fire. -/
inductive FetchOutcome
  | response (r : Response)
  | notFound
  | noUpdate
  deriving DecidableEq, Repr

/-- Modelled from the spec: `Fetch` — the synchronous, non-blocking variant:
evaluates the resolution rule once against the current snapshot and returns
the response, a not-found condition when no snapshot was ever set, or a
no-update signal when the rule does not fire. It is a pure function of the
cache state: it never registers a pending watch. -/
def SnapshotCache.Fetch (c : SnapshotCache) (key : String) (typ : ResponseType)
    (names : List String) (knownVersion : String) : FetchOutcome :=
  match c.GetSnapshot key with
  | none => .notFound
  | some s =>
    match respond s typ names knownVersion with
    | some r => .response r
    | none => .noUpdate

/-- Modelled from the spec: `ClearSnapshot` — removes the group state for
the key entirely; its pending watches are dropped without any delivery. -/
def SnapshotCache.ClearSnapshot (c : SnapshotCache) (key : String) : SnapshotCache :=
  ⟨removeGroup c.groups key, c.nextWatchID⟩

/-- Status introspection record: the number of pending watches. -/
structure StatusInfo where
  numWatches : Nat
  deriving DecidableEq, Repr

/-- Modelled from the spec: `GetStatusInfo` — status for a key, absent when
the group state does not exist. -/
def SnapshotCache.GetStatusInfo (c : SnapshotCache) (key : String) : Option StatusInfo :=
  match c.groups.lookup key with
  | none => none
  | some g => some ⟨g.watches.length⟩

/-- Modelled from the spec: `GetStatusKeys` — the keys with a group state. -/
def SnapshotCache.GetStatusKeys (c : SnapshotCache) : List String :=
  c.groups.map (fun kg => kg.1)

/-- One cache operation, for stating properties over interleaved call
sequences. -/
inductive CacheOp
  | createWatch (key : String) (w : Watch)
  | cancelWatch (key : String) (id : Nat)
  | setSnapshot (key : String) (s : Snapshot)
  | clearSnapshot (key : String)
  deriving DecidableEq, Repr

/-- Apply one operation to the cache state. -/
def applyOp (c : SnapshotCache) (op : CacheOp) : SnapshotCache :=
  match op with
  | .createWatch key w => (c.CreateWatch key w).1
  | .cancelWatch key id => c.CancelWatch key id
  | .setSnapshot key s => (c.SetSnapshot key s).1
  | .clearSnapshot key => c.ClearSnapshot key

/-- Apply a sequence of operations to the cache state. -/
def applyOps : SnapshotCache → List CacheOp → SnapshotCache
  | c, [] => c
  | c, op :: rest => applyOps (applyOp c op) rest

/-- Apply a sequence of `SetSnapshot` calls for one key, collecting every
delivery they make. -/
def applySnapshots : SnapshotCache → String → List Snapshot → SnapshotCache × List (Nat × Response)
  | c, _, [] => (c, [])
  | c, key, s :: rest =>
    ((applySnapshots (c.SetSnapshot key s).1 key rest).1,
     (c.SetSnapshot key s).2 ++ (applySnapshots (c.SetSnapshot key s).1 key rest).2)

/-- Operations that neither set nor clear the snapshot stored for a key. -/
def opPreservesSnapshotOf (key : String) : CacheOp → Bool
  | .setSnapshot k _ => k != key
  | .clearSnapshot k => k != key
  | _ => true

/-- Operations that set a snapshot for a key. -/
def opSetsKey (key : String) : CacheOp → Bool
  | .setSnapshot k _ => k == key
  | _ => false

/-! ### Sample data, mirroring the test fixture -/

/-- Sample endpoint collection at version `x`, as in the test fixture. -/
def sampleEndpoints : Resources := ⟨"x", [("cluster0", "endpoint0")]⟩

/-- Sample cluster collection at version `x`. -/
def sampleClusters : Resources := ⟨"x", [("cluster0", "cluster")]⟩

/-- Sample route collection at version `x`. -/
def sampleRoutes : Resources := ⟨"x", [("route0", "route")]⟩

/-- Sample listener collection at version `x`. -/
def sampleListeners : Resources := ⟨"x", [("listener0", "listener")]⟩

/-- Sample (empty) secret collection at version `x`. -/
def sampleSecrets : Resources := ⟨"x", []⟩

/-- Sample runtime collection at version `x`. -/
def sampleRuntimes : Resources := ⟨"x", [("runtime0", "runtime")]⟩

/-- The sample snapshot at version `x` for every category. -/
def sampleSnapshot : Snapshot :=
  ⟨sampleEndpoints, sampleClusters, sampleRoutes, sampleListeners, sampleSecrets, sampleRuntimes⟩

/-- The sample snapshot with only the endpoint category moved to version
`y` (same items), as in the partially-versioned update of the test. -/
def sampleSnapshotY : Snapshot :=
  ⟨⟨"y", [("cluster0", "endpoint0")]⟩, sampleClusters, sampleRoutes, sampleListeners,
   sampleSecrets, sampleRuntimes⟩

/-! ### Association-list lemmas -/

theorem lookup_setGroup_self (gs : List (String × GroupState)) (key : String) (g : GroupState) :
    (setGroup gs key g).lookup key = some g := by
  induction gs with
  | nil => simp [setGroup, List.lookup]
  | cons kg rest ih =>
    obtain ⟨k, g0⟩ := kg
    by_cases h : k = key
    · simp [setGroup, h, List.lookup]
    · simp only [setGroup, if_neg h, List.lookup]
      have : (key == k) = false := by simp [Ne.symm h]
      simp [this, ih]

theorem lookup_setGroup_other (gs : List (String × GroupState)) (key k' : String) (g : GroupState)
    (h : k' ≠ key) : (setGroup gs key g).lookup k' = gs.lookup k' := by
  induction gs with
  | nil =>
    have : (k' == key) = false := by simp [h]
    simp [setGroup, List.lookup, this]
  | cons kg rest ih =>
    obtain ⟨k, g0⟩ := kg
    by_cases hk : k = key
    · subst hk
      simp only [setGroup, if_pos rfl, List.lookup]
      have : (k' == k) = false := by simp [h]
      simp [this]
    · simp only [setGroup, if_neg hk, List.lookup]
      by_cases hk' : k' = k
      · simp [hk']
      · have : (k' == k) = false := by simp [hk']
        simp [this, ih]

theorem setGroup_lookup_eq (gs : List (String × GroupState)) (key : String) (g : GroupState)
    (h : gs.lookup key = some g) : setGroup gs key g = gs := by
  induction gs with
  | nil => simp [List.lookup] at h
  | cons kg rest ih =>
    obtain ⟨k, g0⟩ := kg
    by_cases hk : k = key
    · subst hk
      simp only [List.lookup, beq_self_eq_true] at h
      simp only [setGroup, if_pos rfl]
      cases h
      rfl
    · have : (key == k) = false := by simp [Ne.symm hk]
      simp only [List.lookup, this] at h
      simp [setGroup, hk, ih h]

theorem setGroup_setGroup (gs : List (String × GroupState)) (key : String) (g g' : GroupState) :
    setGroup (setGroup gs key g) key g' = setGroup gs key g' := by
  induction gs with
  | nil => simp [setGroup]
  | cons kg rest ih =>
    obtain ⟨k, g0⟩ := kg
    by_cases hk : k = key
    · simp [setGroup, hk]
    · simp [setGroup, hk, ih]

theorem mem_map_fst_setGroup (gs : List (String × GroupState)) (key : String) (g : GroupState) :
    key ∈ (setGroup gs key g).map (fun kg => kg.1) := by
  induction gs with
  | nil => simp [setGroup]
  | cons kg rest ih =>
    obtain ⟨k, g0⟩ := kg
    by_cases hk : k = key
    · simp [setGroup, hk]
    · simp only [setGroup, if_neg hk, List.map_cons, List.mem_cons]
      exact Or.inr ih

theorem lookup_removeGroup_self (gs : List (String × GroupState)) (key : String) :
    (removeGroup gs key).lookup key = none := by
  induction gs with
  | nil => simp [removeGroup, List.lookup]
  | cons kg rest ih =>
    obtain ⟨k, g0⟩ := kg
    by_cases hk : k = key
    · simpa [removeGroup, hk] using ih
    · have hne : (k != key) = true := by simp [hk]
      have : (key == k) = false := by simp [Ne.symm hk]
      simp only [removeGroup, List.filter_cons, hne, if_true, List.lookup, this]
      simpa [removeGroup] using ih

theorem lookup_removeGroup_other (gs : List (String × GroupState)) (key k' : String)
    (h : k' ≠ key) : (removeGroup gs key).lookup k' = gs.lookup k' := by
  induction gs with
  | nil => simp [removeGroup]
  | cons kg rest ih =>
    obtain ⟨k, g0⟩ := kg
    by_cases hk : k = key
    · subst hk
      have hne : (k != k) = false := by simp
      have : (k' == k) = false := by simp [h]
      simp only [removeGroup, List.filter_cons, hne, List.lookup, this, if_false]
      simpa [removeGroup] using ih
    · have hne : (k != key) = true := by simp [hk]
      simp only [removeGroup, List.filter_cons, hne, if_true, List.lookup]
      by_cases hk' : k' = k
      · simp [hk']
      · have : (k' == k) = false := by simp [hk']
        simp only [this]
        simpa [removeGroup] using ih

theorem not_mem_map_fst_removeGroup (gs : List (String × GroupState)) (key : String) :
    key ∉ (removeGroup gs key).map (fun kg => kg.1) := by
  induction gs with
  | nil => simp [removeGroup]
  | cons kg rest ih =>
    obtain ⟨k, g0⟩ := kg
    by_cases hk : k = key
    · simp only [removeGroup, hk] at ih ⊢
      simp only [List.filter_cons, bne_self_eq_false]
      exact ih
    · have hne : (k != key) = true := by simp [hk]
      simp only [removeGroup, List.filter_cons, hne, if_true, List.map_cons, List.mem_cons]
      rintro (h | h)
      · exact hk h.symm
      · exact ih (by simp only [removeGroup]; exact h)

/-! ### Resolution-rule lemmas -/

theorem respond_none_of_same_version (s : Snapshot) (typ : ResponseType) (names : List String)
    (kv : String) (hv : s.GetVersion typ = kv) : respond s typ names kv = none := by
  simp [respond, hv]

theorem respond_none_of_unmatched (s : Snapshot) (typ : ResponseType) (names : List String)
    (kv : String) (hn : names ≠ [])
    (hf : (s.GetResources typ).Items.filter (fun it => names.contains it.1) = []) :
    respond s typ names kv = none := by
  by_cases hv : s.GetVersion typ = kv
  · simp [respond, hv]
  · have hne : names.isEmpty = false := by
      cases names with
      | nil => exact absurd rfl hn
      | cons a l => rfl
    unfold respond
    rw [if_neg hv, hne, hf]
    simp

theorem respond_some_fields (s : Snapshot) (typ : ResponseType) (names : List String)
    (kv : String) (r : Response) (h : respond s typ names kv = some r) :
    r.typ = typ ∧ r.Version = s.GetVersion typ := by
  unfold respond at h
  split at h
  · exact absurd h (by simp)
  · split at h
    · cases h
      exact ⟨rfl, rfl⟩
    · split at h
      · exact absurd h (by simp)
      · cases h
        exact ⟨rfl, rfl⟩

theorem respondTo_congr (s s' : Snapshot) (w : Watch)
    (h : s.GetResources w.typ = s'.GetResources w.typ) :
    Watch.respondTo s w = Watch.respondTo s' w := by
  unfold Watch.respondTo respond Snapshot.GetVersion
  rw [h]

/-! ### Basic cache-operation lemmas -/

theorem pendingWatches_setSnapshot (c : SnapshotCache) (key : String) (s : Snapshot) :
    (c.SetSnapshot key s).1.pendingWatches key =
      (c.pendingWatches key).filter (fun iw => (Watch.respondTo s iw.2).isNone) := by
  simp [SnapshotCache.SetSnapshot, SnapshotCache.pendingWatches, SnapshotCache.groupOf,
    lookup_setGroup_self]

theorem delivered_setSnapshot (c : SnapshotCache) (key : String) (s : Snapshot) :
    (c.SetSnapshot key s).2 =
      (c.pendingWatches key).filterMap
        (fun iw => (Watch.respondTo s iw.2).map (fun r => (iw.1, r))) := rfl

theorem getSnapshot_setSnapshot_self (c : SnapshotCache) (key : String) (s : Snapshot) :
    (c.SetSnapshot key s).1.GetSnapshot key = some s := by
  simp [SnapshotCache.SetSnapshot, SnapshotCache.GetSnapshot, SnapshotCache.groupOf,
    lookup_setGroup_self]

theorem mem_pending_setSnapshot (c : SnapshotCache) (key : String) (iw : Nat × Watch)
    (s : Snapshot) (hmem : iw ∈ c.pendingWatches key)
    (hresp : Watch.respondTo s iw.2 = none) :
    iw ∈ (c.SetSnapshot key s).1.pendingWatches key := by
  rw [pendingWatches_setSnapshot]
  exact List.mem_filter.mpr ⟨hmem, by simp [hresp]⟩

theorem not_delivered_setSnapshot (c : SnapshotCache) (key : String) (i : Nat) (w : Watch)
    (s : Snapshot) (hresp : Watch.respondTo s w = none)
    (huniq : ∀ iw ∈ c.pendingWatches key, iw.1 = i → iw.2 = w) :
    ∀ r, (i, r) ∉ (c.SetSnapshot key s).2 := by
  intro r hr
  rw [delivered_setSnapshot] at hr
  obtain ⟨iw, hmem, heq⟩ := List.mem_filterMap.mp hr
  obtain ⟨r', hr', heq'⟩ := Option.map_eq_some'.mp heq
  have hfst : iw.1 = i := congrArg Prod.fst heq'
  have := huniq iw hmem hfst
  rw [this] at hr'
  rw [hresp] at hr'
  exact Option.noConfusion hr'

theorem uniq_preserved_setSnapshot (c : SnapshotCache) (key : String) (i : Nat) (w : Watch)
    (s : Snapshot) (huniq : ∀ iw ∈ c.pendingWatches key, iw.1 = i → iw.2 = w) :
    ∀ iw ∈ (c.SetSnapshot key s).1.pendingWatches key, iw.1 = i → iw.2 = w := by
  intro iw hmem
  rw [pendingWatches_setSnapshot] at hmem
  exact huniq iw (List.mem_filter.mp hmem).1

theorem applySnapshots_preserves (key : String) (i : Nat) (w : Watch) (snaps : List Snapshot)
    (hresp : ∀ s ∈ snaps, Watch.respondTo s w = none) :
    ∀ c : SnapshotCache, (i, w) ∈ c.pendingWatches key →
      (∀ iw ∈ c.pendingWatches key, iw.1 = i → iw.2 = w) →
      (i, w) ∈ (applySnapshots c key snaps).1.pendingWatches key ∧
        ∀ r, (i, r) ∉ (applySnapshots c key snaps).2 := by
  induction snaps with
  | nil =>
    intro c hmem _
    exact ⟨hmem, by simp [applySnapshots]⟩
  | cons s rest ih =>
    intro c hmem huniq
    have hs : Watch.respondTo s w = none := hresp s (by simp)
    have hrest : ∀ s' ∈ rest, Watch.respondTo s' w = none := fun s' h => hresp s' (by simp [h])
    have hmem' : (i, w) ∈ (c.SetSnapshot key s).1.pendingWatches key :=
      mem_pending_setSnapshot c key (i, w) s hmem hs
    have huniq' := uniq_preserved_setSnapshot c key i w s huniq
    obtain ⟨h1, h2⟩ := ih hrest (c.SetSnapshot key s).1 hmem' huniq'
    refine ⟨h1, ?_⟩
    intro r hr
    simp only [applySnapshots, List.mem_append] at hr
    rcases hr with hr | hr
    · exact not_delivered_setSnapshot c key i w s hs huniq r hr
    · exact h2 r hr

theorem createWatch_unresolved (c : SnapshotCache) (key : String) (w : Watch)
    (himm : immediateResponse (c.groupOf key) w = none) :
    c.CreateWatch key w =
      (⟨setGroup c.groups key
          ⟨(c.groupOf key).snapshot, (c.groupOf key).watches ++ [(c.nextWatchID, w)]⟩,
        c.nextWatchID + 1⟩,
       none, c.nextWatchID) := by
  simp [SnapshotCache.CreateWatch, himm]

theorem createWatch_resolved (c : SnapshotCache) (key : String) (w : Watch) (r : Response)
    (himm : immediateResponse (c.groupOf key) w = some r) :
    c.CreateWatch key w =
      (⟨setGroup c.groups key (c.groupOf key), c.nextWatchID + 1⟩, some r, c.nextWatchID) := by
  simp [SnapshotCache.CreateWatch, himm]

theorem pendingWatches_createWatch_unresolved (c : SnapshotCache) (key : String) (w : Watch)
    (himm : immediateResponse (c.groupOf key) w = none) :
    (c.CreateWatch key w).1.pendingWatches key =
      c.pendingWatches key ++ [(c.nextWatchID, w)] := by
  rw [createWatch_unresolved c key w himm]
  simp [SnapshotCache.pendingWatches, SnapshotCache.groupOf, lookup_setGroup_self]

theorem getSnapshot_createWatch (c : SnapshotCache) (key k' : String) (w : Watch) :
    (c.CreateWatch key w).1.GetSnapshot k' = c.GetSnapshot k' := by
  by_cases hk : k' = key
  · subst hk
    cases himm : immediateResponse (c.groupOf k') w with
    | none =>
      rw [createWatch_unresolved c k' w himm]
      simp [SnapshotCache.GetSnapshot, SnapshotCache.groupOf, lookup_setGroup_self]
    | some r =>
      rw [createWatch_resolved c k' w r himm]
      simp [SnapshotCache.GetSnapshot, SnapshotCache.groupOf, lookup_setGroup_self]
  · have hgroups : (c.CreateWatch key w).1.groups.lookup k' = c.groups.lookup k' := by
      cases himm : immediateResponse (c.groupOf key) w with
      | none =>
        rw [createWatch_unresolved c key w himm]
        exact lookup_setGroup_other _ _ _ _ hk
      | some r =>
        rw [createWatch_resolved c key w r himm]
        exact lookup_setGroup_other _ _ _ _ hk
    simp [SnapshotCache.GetSnapshot, SnapshotCache.groupOf, hgroups]

theorem getSnapshot_cancelWatch (c : SnapshotCache) (key k' : String) (id : Nat) :
    (c.CancelWatch key id).GetSnapshot k' = c.GetSnapshot k' := by
  unfold SnapshotCache.CancelWatch
  cases hlook : c.groups.lookup key with
  | none => rfl
  | some g =>
    by_cases hk : k' = key
    · subst hk
      simp [SnapshotCache.GetSnapshot, SnapshotCache.groupOf, lookup_setGroup_self, hlook]
    · simp [SnapshotCache.GetSnapshot, SnapshotCache.groupOf, lookup_setGroup_other _ _ _ _ hk]

theorem getSnapshot_setSnapshot_other (c : SnapshotCache) (key k' : String) (s : Snapshot)
    (hk : k' ≠ key) : (c.SetSnapshot key s).1.GetSnapshot k' = c.GetSnapshot k' := by
  simp [SnapshotCache.SetSnapshot, SnapshotCache.GetSnapshot, SnapshotCache.groupOf,
    lookup_setGroup_other _ _ _ _ hk]

theorem getSnapshot_clearSnapshot_self (c : SnapshotCache) (key : String) :
    (c.ClearSnapshot key).GetSnapshot key = none := by
  simp [SnapshotCache.ClearSnapshot, SnapshotCache.GetSnapshot, SnapshotCache.groupOf,
    lookup_removeGroup_self]

theorem getSnapshot_clearSnapshot_other (c : SnapshotCache) (key k' : String)
    (hk : k' ≠ key) : (c.ClearSnapshot key).GetSnapshot k' = c.GetSnapshot k' := by
  simp [SnapshotCache.ClearSnapshot, SnapshotCache.GetSnapshot, SnapshotCache.groupOf,
    lookup_removeGroup_other _ _ _ hk]

theorem getSnapshot_applyOp (c : SnapshotCache) (key : String) (op : CacheOp)
    (hop : opPreservesSnapshotOf key op = true) :
    (applyOp c op).GetSnapshot key = c.GetSnapshot key := by
  cases op with
  | createWatch k w => exact getSnapshot_createWatch c k key w
  | cancelWatch k id => exact getSnapshot_cancelWatch c k key id
  | setSnapshot k s =>
    have hk : key ≠ k := by
      simp [opPreservesSnapshotOf] at hop
      exact fun h => hop h.symm
    exact getSnapshot_setSnapshot_other c k key s hk
  | clearSnapshot k =>
    have hk : key ≠ k := by
      simp [opPreservesSnapshotOf] at hop
      exact fun h => hop h.symm
    exact getSnapshot_clearSnapshot_other c k key hk

theorem getSnapshot_applyOps (key : String) (ops : List CacheOp)
    (hops : ∀ op ∈ ops, opPreservesSnapshotOf key op = true) :
    ∀ c : SnapshotCache, (applyOps c ops).GetSnapshot key = c.GetSnapshot key := by
  induction ops with
  | nil => intro c; rfl
  | cons op rest ih =>
    intro c
    have h1 : opPreservesSnapshotOf key op = true := hops op (by simp)
    have h2 : ∀ op' ∈ rest, opPreservesSnapshotOf key op' = true :=
      fun op' h => hops op' (by simp [h])
    calc (applyOps (applyOp c op) rest).GetSnapshot key
        = (applyOp c op).GetSnapshot key := ih h2 (applyOp c op)
      _ = c.GetSnapshot key := getSnapshot_applyOp c key op h1

theorem getSnapshot_none_applyOp (c : SnapshotCache) (key : String) (op : CacheOp)
    (hnone : c.GetSnapshot key = none) (hop : opSetsKey key op = false) :
    (applyOp c op).GetSnapshot key = none := by
  cases op with
  | createWatch k w =>
    simp only [applyOp]
    rw [getSnapshot_createWatch c k key w]; exact hnone
  | cancelWatch k id =>
    simp only [applyOp]
    rw [getSnapshot_cancelWatch c k key id]; exact hnone
  | setSnapshot k s =>
    have hk : key ≠ k := by
      simp [opSetsKey] at hop
      exact fun h => hop h.symm
    simp only [applyOp]
    rw [getSnapshot_setSnapshot_other c k key s hk]; exact hnone
  | clearSnapshot k =>
    simp only [applyOp]
    by_cases hk : key = k
    · subst hk; exact getSnapshot_clearSnapshot_self c key
    · rw [getSnapshot_clearSnapshot_other c k key hk]; exact hnone

theorem getSnapshot_none_applyOps (key : String) (ops : List CacheOp)
    (hops : ∀ op ∈ ops, opSetsKey key op = false) :
    ∀ c : SnapshotCache, c.GetSnapshot key = none → (applyOps c ops).GetSnapshot key = none := by
  induction ops with
  | nil => intro c h; exact h
  | cons op rest ih =>
    intro c h
    have h1 : opSetsKey key op = false := hops op (by simp)
    have h2 : ∀ op' ∈ rest, opSetsKey key op' = false := fun op' hm => hops op' (by simp [hm])
    exact ih h2 (applyOp c op) (getSnapshot_none_applyOp c key op h h1)

theorem fetch_notFound_iff (c : SnapshotCache) (key : String) (typ : ResponseType)
    (names : List String) (kv : String) :
    c.Fetch key typ names kv = FetchOutcome.notFound ↔ c.GetSnapshot key = none := by
  unfold SnapshotCache.Fetch
  cases h : c.GetSnapshot key with
  | none => simp
  | some s =>
    cases hr : respond s typ names kv with
    | none => simp [hr]
    | some r => simp [hr]

theorem fetch_noUpdate_iff (c : SnapshotCache) (key : String) (typ : ResponseType)
    (names : List String) (kv : String) :
    c.Fetch key typ names kv = FetchOutcome.noUpdate ↔
      ∃ s, c.GetSnapshot key = some s ∧ respond s typ names kv = none := by
  unfold SnapshotCache.Fetch
  cases h : c.GetSnapshot key with
  | none => simp
  | some s =>
    cases hr : respond s typ names kv with
    | none => simp [hr]
    | some r => simp [hr]

theorem createWatch_then_applySnapshots_pending
    (c : SnapshotCache) (key : String) (w : Watch) (snaps : List Snapshot)
    (himm : immediateResponse (c.groupOf key) w = none)
    (hfresh : ∀ iw ∈ c.pendingWatches key, iw.1 ≠ c.nextWatchID)
    (hresp : ∀ s ∈ snaps, Watch.respondTo s w = none) :
    (c.nextWatchID, w) ∈ (applySnapshots (c.CreateWatch key w).1 key snaps).1.pendingWatches key ∧
      ∀ r, (c.nextWatchID, r) ∉ (applySnapshots (c.CreateWatch key w).1 key snaps).2 := by
  have hpend := pendingWatches_createWatch_unresolved c key w himm
  have hmem : (c.nextWatchID, w) ∈ (c.CreateWatch key w).1.pendingWatches key := by
    rw [hpend]
    exact List.mem_append_right _ (by simp)
  have huniq : ∀ iw ∈ (c.CreateWatch key w).1.pendingWatches key,
      iw.1 = c.nextWatchID → iw.2 = w := by
    intro iw hm heq
    rw [hpend] at hm
    rcases List.mem_append.mp hm with h | h
    · exact absurd heq (hfresh iw h)
    · simp at h
      rw [h]
  exact applySnapshots_preserves key c.nextWatchID w snaps hresp (c.CreateWatch key w).1 hmem huniq

/-- C1: a watch or fetch request with a non-empty resource-name set, a
version differing from the known one, but none of the requested names
present in the category's collection, does not resolve: the watch's channel
stays empty and the watch stays parked, `Fetch` reports no update, and this
persists across any sequence of `SetSnapshot` calls whose snapshots still
contain none of the requested names — no delivery ever reaches the watch. -/
theorem createWatch_unmatched_names_never_resolves
    (c : SnapshotCache) (key : String) (w : Watch) (s0 : Snapshot) (snaps : List Snapshot)
    (hn : w.resourceNames ≠ [])
    (hs0 : c.GetSnapshot key = some s0)
    (_hv0 : s0.GetVersion w.typ ≠ w.knownVersion)
    (hf0 : (s0.GetResources w.typ).Items.filter (fun it => w.resourceNames.contains it.1) = [])
    (hfresh : ∀ iw ∈ c.pendingWatches key, iw.1 ≠ c.nextWatchID)
    (hfs : ∀ s ∈ snaps,
      (s.GetResources w.typ).Items.filter (fun it => w.resourceNames.contains it.1) = []) :
    (c.CreateWatch key w).2.1 = none ∧
    (c.nextWatchID, w) ∈ (c.CreateWatch key w).1.pendingWatches key ∧
    c.Fetch key w.typ w.resourceNames w.knownVersion = FetchOutcome.noUpdate ∧
    (c.nextWatchID, w) ∈ (applySnapshots (c.CreateWatch key w).1 key snaps).1.pendingWatches key ∧
    ∀ r, (c.nextWatchID, r) ∉ (applySnapshots (c.CreateWatch key w).1 key snaps).2 := by
  have hresp0 : Watch.respondTo s0 w = none :=
    respond_none_of_unmatched s0 w.typ w.resourceNames w.knownVersion hn hf0
  have hsnap : (c.groupOf key).snapshot = some s0 := hs0
  have himm : immediateResponse (c.groupOf key) w = none := by
    simp [immediateResponse, hsnap, hresp0]
  have hresp : ∀ s ∈ snaps, Watch.respondTo s w = none := fun s h =>
    respond_none_of_unmatched s w.typ w.resourceNames w.knownVersion hn (hfs s h)
  have hpersist := createWatch_then_applySnapshots_pending c key w snaps himm hfresh hresp
  refine ⟨?_, ?_, ?_, hpersist.1, hpersist.2⟩
  · rw [createWatch_unresolved c key w himm]
  · rw [pendingWatches_createWatch_unresolved c key w himm]
    exact List.mem_append_right _ (by simp)
  · exact (fetch_noUpdate_iff c key w.typ w.resourceNames w.knownVersion).mpr
      ⟨s0, hs0, hresp0⟩

theorem createWatch_unmatched_names_never_resolves_witness :
    (((NewSnapshotCache.SetSnapshot "node" sampleSnapshot).1.CreateWatch "node"
        ⟨ResponseType.EndpointType, ["none"], ""⟩).2.1 = none) ∧
    ((0 : Nat), (⟨ResponseType.EndpointType, ["none"], ""⟩ : Watch)) ∈
      (applySnapshots
        ((NewSnapshotCache.SetSnapshot "node" sampleSnapshot).1.CreateWatch "node"
          ⟨ResponseType.EndpointType, ["none"], ""⟩).1 "node"
        [sampleSnapshotY]).1.pendingWatches "node" := by
  have h := createWatch_unmatched_names_never_resolves
    (NewSnapshotCache.SetSnapshot "node" sampleSnapshot).1 "node"
    ⟨ResponseType.EndpointType, ["none"], ""⟩ sampleSnapshot [sampleSnapshotY]
    (by decide) (by decide) (by decide) (by decide) (by decide) (by decide)
  exact ⟨h.1, h.2.2.2.1⟩

/-- C2: a watch or fetch request whose known version equals the current
snapshot's version for its category does not resolve: the watch is parked
(and counted by `GetStatusInfo`), `Fetch` reports no update, and the watch
stays parked, never delivered, across any sequence of `SetSnapshot` calls
whose snapshots keep that category at the known version. -/
theorem watch_current_version_stays_pending
    (c : SnapshotCache) (key : String) (w : Watch) (s0 : Snapshot) (snaps : List Snapshot)
    (hs0 : c.GetSnapshot key = some s0)
    (hv0 : s0.GetVersion w.typ = w.knownVersion)
    (hfresh : ∀ iw ∈ c.pendingWatches key, iw.1 ≠ c.nextWatchID)
    (hvs : ∀ s ∈ snaps, s.GetVersion w.typ = w.knownVersion) :
    (c.CreateWatch key w).2.1 = none ∧
    (c.nextWatchID, w) ∈ (c.CreateWatch key w).1.pendingWatches key ∧
    (c.CreateWatch key w).1.GetStatusInfo key = some ⟨(c.pendingWatches key).length + 1⟩ ∧
    c.Fetch key w.typ w.resourceNames w.knownVersion = FetchOutcome.noUpdate ∧
    (c.nextWatchID, w) ∈ (applySnapshots (c.CreateWatch key w).1 key snaps).1.pendingWatches key ∧
    ∀ r, (c.nextWatchID, r) ∉ (applySnapshots (c.CreateWatch key w).1 key snaps).2 := by
  have hresp0 : Watch.respondTo s0 w = none :=
    respond_none_of_same_version s0 w.typ w.resourceNames w.knownVersion hv0
  have hsnap : (c.groupOf key).snapshot = some s0 := hs0
  have himm : immediateResponse (c.groupOf key) w = none := by
    simp [immediateResponse, hsnap, hresp0]
  have hresp : ∀ s ∈ snaps, Watch.respondTo s w = none := fun s h =>
    respond_none_of_same_version s w.typ w.resourceNames w.knownVersion (hvs s h)
  have hpersist := createWatch_then_applySnapshots_pending c key w snaps himm hfresh hresp
  refine ⟨?_, ?_, ?_, ?_, hpersist.1, hpersist.2⟩
  · rw [createWatch_unresolved c key w himm]
  · rw [pendingWatches_createWatch_unresolved c key w himm]
    exact List.mem_append_right _ (by simp)
  · rw [createWatch_unresolved c key w himm]
    simp [SnapshotCache.GetStatusInfo, lookup_setGroup_self, SnapshotCache.pendingWatches]
  · exact (fetch_noUpdate_iff c key w.typ w.resourceNames w.knownVersion).mpr
      ⟨s0, hs0, hresp0⟩

theorem watch_current_version_stays_pending_witness :
    (((NewSnapshotCache.SetSnapshot "node" sampleSnapshot).1.CreateWatch "node"
        ⟨ResponseType.ClusterType, [], "x"⟩).2.1 = none) ∧
    (((NewSnapshotCache.SetSnapshot "node" sampleSnapshot).1.CreateWatch "node"
        ⟨ResponseType.ClusterType, [], "x"⟩).1.GetStatusInfo "node" = some ⟨1⟩) ∧
    ((0 : Nat), (⟨ResponseType.ClusterType, [], "x"⟩ : Watch)) ∈
      (applySnapshots
        ((NewSnapshotCache.SetSnapshot "node" sampleSnapshot).1.CreateWatch "node"
          ⟨ResponseType.ClusterType, [], "x"⟩).1 "node"
        [sampleSnapshotY]).1.pendingWatches "node" := by
  have h := watch_current_version_stays_pending
    (NewSnapshotCache.SetSnapshot "node" sampleSnapshot).1 "node"
    ⟨ResponseType.ClusterType, [], "x"⟩ sampleSnapshot [sampleSnapshotY]
    (by decide) (by decide) (by decide) (by decide)
  exact ⟨h.1, h.2.2.1, h.2.2.2.2.1⟩

/-- C3: a `CreateWatch` whose group holds a snapshot with a differing
version for the category and whose resource-name set is empty resolves
immediately: the channel is pre-loaded with exactly one response carrying
all of the category's resources at the snapshot's version, and the group's
pending set is unchanged. -/
theorem createWatch_empty_names_resolves_immediately
    (c : SnapshotCache) (key : String) (w : Watch) (s0 : Snapshot)
    (hs0 : c.GetSnapshot key = some s0)
    (hv : s0.GetVersion w.typ ≠ w.knownVersion)
    (hnames : w.resourceNames = []) :
    (c.CreateWatch key w).2.1 =
      some ⟨w.typ, s0.GetVersion w.typ, (s0.GetResources w.typ).Items⟩ ∧
    (c.CreateWatch key w).1.pendingWatches key = c.pendingWatches key := by
  have hresp : Watch.respondTo s0 w =
      some ⟨w.typ, s0.GetVersion w.typ, (s0.GetResources w.typ).Items⟩ := by
    simp [Watch.respondTo, respond, hv, hnames]
  have hsnap : (c.groupOf key).snapshot = some s0 := hs0
  have himm : immediateResponse (c.groupOf key) w =
      some ⟨w.typ, s0.GetVersion w.typ, (s0.GetResources w.typ).Items⟩ := by
    simp [immediateResponse, hsnap, hresp]
  rw [createWatch_resolved c key w _ himm]
  refine ⟨rfl, ?_⟩
  simp [SnapshotCache.pendingWatches, SnapshotCache.groupOf, lookup_setGroup_self]

theorem createWatch_empty_names_resolves_immediately_witness :
    ((NewSnapshotCache.SetSnapshot "node" sampleSnapshot).1.CreateWatch "node"
        ⟨ResponseType.EndpointType, [], ""⟩).2.1 =
      some ⟨ResponseType.EndpointType, "x", [("cluster0", "endpoint0")]⟩ ∧
    ((NewSnapshotCache.SetSnapshot "node" sampleSnapshot).1.CreateWatch "node"
        ⟨ResponseType.EndpointType, [], ""⟩).1.pendingWatches "node" =
      (NewSnapshotCache.SetSnapshot "node" sampleSnapshot).1.pendingWatches "node" :=
  createWatch_empty_names_resolves_immediately
    (NewSnapshotCache.SetSnapshot "node" sampleSnapshot).1 "node"
    ⟨ResponseType.EndpointType, [], ""⟩ sampleSnapshot (by decide) (by decide) (by decide)

/-- C5: `SetSnapshot` then `GetSnapshot` returns exactly the snapshot last
set, across any interleaved operations (watch creations, cancellations,
sets or clears of other keys) that do not set or clear this key. -/
theorem setSnapshot_getSnapshot_roundtrip
    (c : SnapshotCache) (key : String) (s : Snapshot) (ops : List CacheOp)
    (hops : ∀ op ∈ ops, opPreservesSnapshotOf key op = true) :
    (applyOps (c.SetSnapshot key s).1 ops).GetSnapshot key = some s := by
  rw [getSnapshot_applyOps key ops hops (c.SetSnapshot key s).1]
  exact getSnapshot_setSnapshot_self c key s

theorem setSnapshot_getSnapshot_roundtrip_witness :
    (applyOps (NewSnapshotCache.SetSnapshot "node" sampleSnapshot).1
      [CacheOp.createWatch "node" ⟨ResponseType.EndpointType, ["none"], ""⟩,
       CacheOp.setSnapshot "other" sampleSnapshotY,
       CacheOp.cancelWatch "node" 0,
       CacheOp.clearSnapshot "other"]).GetSnapshot "node" = some sampleSnapshot :=
  setSnapshot_getSnapshot_roundtrip NewSnapshotCache "node" sampleSnapshot
    [CacheOp.createWatch "node" ⟨ResponseType.EndpointType, ["none"], ""⟩,
     CacheOp.setSnapshot "other" sampleSnapshotY,
     CacheOp.cancelWatch "node" 0,
     CacheOp.clearSnapshot "other"] (by decide)

/-- C6: for a key never given a snapshot by any operation of the run —
watches may well have been created on it — `GetSnapshot` reports not found
(`none`) and `Fetch` returns the distinguished not-found outcome rather
than a response. -/
theorem getSnapshot_without_set_notFound
    (key : String) (ops : List CacheOp) (typ : ResponseType) (names : List String) (kv : String)
    (hops : ∀ op ∈ ops, opSetsKey key op = false) :
    (applyOps NewSnapshotCache ops).GetSnapshot key = none ∧
    (applyOps NewSnapshotCache ops).Fetch key typ names kv = FetchOutcome.notFound := by
  have hnone : (applyOps NewSnapshotCache ops).GetSnapshot key = none :=
    getSnapshot_none_applyOps key ops hops NewSnapshotCache rfl
  exact ⟨hnone, (fetch_notFound_iff _ key typ names kv).mpr hnone⟩

theorem getSnapshot_without_set_notFound_witness :
    (applyOps NewSnapshotCache
      [CacheOp.createWatch "node" ⟨ResponseType.EndpointType, [], ""⟩,
       CacheOp.setSnapshot "other" sampleSnapshot]).GetSnapshot "node" = none ∧
    (applyOps NewSnapshotCache
      [CacheOp.createWatch "node" ⟨ResponseType.EndpointType, [], ""⟩,
       CacheOp.setSnapshot "other" sampleSnapshot]).Fetch "node"
        ResponseType.ClusterType [] "" = FetchOutcome.notFound :=
  getSnapshot_without_set_notFound "node"
    [CacheOp.createWatch "node" ⟨ResponseType.EndpointType, [], ""⟩,
     CacheOp.setSnapshot "other" sampleSnapshot]
    ResponseType.ClusterType [] "" (by decide)

/-- C7: `Fetch` never yields a response without distinguishing its failure
modes: it returns the not-found outcome exactly when no snapshot was ever
set for the key, the no-update outcome exactly when a snapshot exists but
the resolution rule does not fire (caller current, or name filter matched
nothing), and the two outcomes are distinct values; being a pure function
of the cache state, it registers no watch and cannot block. -/
theorem fetch_outcomes_distinguished
    (c : SnapshotCache) (key : String) (typ : ResponseType) (names : List String) (kv : String) :
    (c.Fetch key typ names kv = FetchOutcome.notFound ↔ c.GetSnapshot key = none) ∧
    (c.Fetch key typ names kv = FetchOutcome.noUpdate ↔
      ∃ s, c.GetSnapshot key = some s ∧ respond s typ names kv = none) ∧
    FetchOutcome.notFound ≠ FetchOutcome.noUpdate := by
  refine ⟨fetch_notFound_iff c key typ names kv, fetch_noUpdate_iff c key typ names kv, ?_⟩
  intro h
  exact FetchOutcome.noConfusion h

theorem fetch_outcomes_distinguished_witness :
    (NewSnapshotCache.Fetch "node" ResponseType.ClusterType [] "x" = FetchOutcome.notFound ↔
      NewSnapshotCache.GetSnapshot "node" = none) ∧
    (NewSnapshotCache.Fetch "node" ResponseType.ClusterType [] "x" = FetchOutcome.noUpdate ↔
      ∃ s, NewSnapshotCache.GetSnapshot "node" = some s ∧
        respond s ResponseType.ClusterType [] "x" = none) ∧
    FetchOutcome.notFound ≠ FetchOutcome.noUpdate :=
  fetch_outcomes_distinguished NewSnapshotCache "node" ResponseType.ClusterType [] "x"

theorem length_filter_bne (l : List (Nat × Watch)) (i : Nat) :
    (l.filter (fun iw => iw.1 != i)).length =
      l.length - (l.filter (fun iw => iw.1 == i)).length := by
  induction l with
  | nil => rfl
  | cons a rest ih =>
    have hle := List.length_filter_le (fun iw => iw.1 == i) rest
    by_cases h : a.1 = i
    · have h1 : (a.1 != i) = false := by simp [h]
      have h2 : (a.1 == i) = true := by simp [h]
      simp only [List.filter_cons, h1, h2, if_true, Bool.false_eq_true, if_false,
        List.length_cons]
      omega
    · have h1 : (a.1 != i) = true := by simp [h]
      have h2 : (a.1 == i) = false := by simp [h]
      simp only [List.filter_cons, h1, h2, if_true, Bool.false_eq_true, if_false,
        List.length_cons]
      omega

theorem cancelWatch_not_pending (c : SnapshotCache) (key : String) (id : Nat)
    (h : ∀ w, (id, w) ∉ c.pendingWatches key) : c.CancelWatch key id = c := by
  unfold SnapshotCache.CancelWatch
  cases hlook : c.groups.lookup key with
  | none => rfl
  | some g =>
    have hpend : c.pendingWatches key = g.watches := by
      simp [SnapshotCache.pendingWatches, SnapshotCache.groupOf, hlook]
    have hfilter : g.watches.filter (fun iw => iw.1 != id) = g.watches := by
      apply List.filter_eq_self.mpr
      intro iw hm
      have hne : iw.1 ≠ id := by
        intro hfst
        apply h iw.2
        rw [hpend, ← hfst]
        exact hm
      simp [hne]
    dsimp only
    rw [hfilter]
    have hg : (⟨g.snapshot, g.watches⟩ : GroupState) = g := rfl
    rw [hg, setGroup_lookup_eq c.groups key g hlook]

theorem delivered_fst_pending (c : SnapshotCache) (key : String) (s : Snapshot) (i : Nat)
    (r : Response) (h : (i, r) ∈ (c.SetSnapshot key s).2) :
    ∃ w, (i, w) ∈ c.pendingWatches key := by
  rw [delivered_setSnapshot] at h
  obtain ⟨iw, hm, heq⟩ := List.mem_filterMap.mp h
  obtain ⟨r', _, heq'⟩ := Option.map_eq_some'.mp heq
  have hfst : iw.1 = i := congrArg Prod.fst heq'
  refine ⟨iw.2, ?_⟩
  rw [← hfst]
  exact hm

/-- C8: cancelling a pending watch removes it from the pending set (the
`GetStatusInfo` count drops by one) while the group stays listed by
`GetStatusKeys`; nothing is ever delivered for the cancelled identifier by a
later `SetSnapshot`; and cancelling a second time — which also covers
cancelling after resolution, since a resolved watch is no longer pending —
changes nothing. -/
theorem cancelWatch_removes_and_idempotent
    (c : SnapshotCache) (key : String) (i : Nat) (w : Watch)
    (hmem : (i, w) ∈ c.pendingWatches key)
    (hcount : ((c.pendingWatches key).filter (fun iw => iw.1 == i)).length = 1) :
    (c.CancelWatch key i).GetStatusInfo key = some ⟨(c.pendingWatches key).length - 1⟩ ∧
    (∀ w', (i, w') ∉ (c.CancelWatch key i).pendingWatches key) ∧
    key ∈ (c.CancelWatch key i).GetStatusKeys ∧
    (c.CancelWatch key i).CancelWatch key i = c.CancelWatch key i ∧
    ∀ s r, (i, r) ∉ ((c.CancelWatch key i).SetSnapshot key s).2 := by
  cases hlook : c.groups.lookup key with
  | none =>
    exfalso
    simp [SnapshotCache.pendingWatches, SnapshotCache.groupOf, hlook] at hmem
  | some g =>
    have hpend : c.pendingWatches key = g.watches := by
      simp [SnapshotCache.pendingWatches, SnapshotCache.groupOf, hlook]
    have hcancel : c.CancelWatch key i =
        ⟨setGroup c.groups key ⟨g.snapshot, g.watches.filter (fun iw => iw.1 != i)⟩,
          c.nextWatchID⟩ := by
      unfold SnapshotCache.CancelWatch
      rw [hlook]
    have hpend' : (c.CancelWatch key i).pendingWatches key =
        g.watches.filter (fun iw => iw.1 != i) := by
      rw [hcancel]
      simp [SnapshotCache.pendingWatches, SnapshotCache.groupOf, lookup_setGroup_self]
    have hnot : ∀ w', (i, w') ∉ (c.CancelWatch key i).pendingWatches key := by
      intro w' hm
      rw [hpend'] at hm
      have := (List.mem_filter.mp hm).2
      simp at this
    refine ⟨?_, hnot, ?_, ?_, ?_⟩
    · rw [hcancel]
      simp only [SnapshotCache.GetStatusInfo, lookup_setGroup_self]
      rw [length_filter_bne g.watches i, ← hpend, hcount]
    · rw [hcancel]
      simpa [SnapshotCache.GetStatusKeys] using
        mem_map_fst_setGroup c.groups key ⟨g.snapshot, g.watches.filter (fun iw => iw.1 != i)⟩
    · exact cancelWatch_not_pending (c.CancelWatch key i) key i hnot
    · intro s r hm
      obtain ⟨w', hw'⟩ := delivered_fst_pending (c.CancelWatch key i) key s i r hm
      exact hnot w' hw'

theorem cancelWatch_removes_and_idempotent_witness :
    ((NewSnapshotCache.CreateWatch "node" ⟨ResponseType.EndpointType, [], ""⟩).1.CancelWatch
        "node" 0).GetStatusInfo "node" = some ⟨0⟩ ∧
    "node" ∈ ((NewSnapshotCache.CreateWatch "node"
        ⟨ResponseType.EndpointType, [], ""⟩).1.CancelWatch "node" 0).GetStatusKeys ∧
    (((NewSnapshotCache.CreateWatch "node" ⟨ResponseType.EndpointType, [], ""⟩).1.CancelWatch
        "node" 0).CancelWatch "node" 0 =
      (NewSnapshotCache.CreateWatch "node" ⟨ResponseType.EndpointType, [], ""⟩).1.CancelWatch
        "node" 0) := by
  have h := cancelWatch_removes_and_idempotent
    (NewSnapshotCache.CreateWatch "node" ⟨ResponseType.EndpointType, [], ""⟩).1 "node" 0
    ⟨ResponseType.EndpointType, [], ""⟩ (by decide) (by decide)
  exact ⟨h.1, h.2.2.1, h.2.2.2.1⟩

/-- C9: `ClearSnapshot` removes the group state entirely: `GetStatusInfo`
reports absent, `GetStatusKeys` no longer lists the key, `GetSnapshot`
reports not found, and no delivery is pending — a subsequent `SetSnapshot`
for the key delivers nothing to the dropped watches. -/
theorem clearSnapshot_removes_group (c : SnapshotCache) (key : String) :
    (c.ClearSnapshot key).GetStatusInfo key = none ∧
    key ∉ (c.ClearSnapshot key).GetStatusKeys ∧
    (c.ClearSnapshot key).GetSnapshot key = none ∧
    ∀ s : Snapshot, ((c.ClearSnapshot key).SetSnapshot key s).2 = [] := by
  refine ⟨?_, ?_, getSnapshot_clearSnapshot_self c key, ?_⟩
  · simp [SnapshotCache.GetStatusInfo, SnapshotCache.ClearSnapshot, lookup_removeGroup_self]
  · simpa [SnapshotCache.GetStatusKeys, SnapshotCache.ClearSnapshot] using
      not_mem_map_fst_removeGroup c.groups key
  · intro s
    simp [SnapshotCache.SetSnapshot, SnapshotCache.groupOf, SnapshotCache.ClearSnapshot,
      lookup_removeGroup_self]

theorem length_remaining_add_delivered (l : List (Nat × Watch)) (s : Snapshot) :
    (l.filter (fun iw => (Watch.respondTo s iw.2).isNone)).length +
      (l.filterMap (fun iw => (Watch.respondTo s iw.2).map (fun r => (iw.1, r)))).length =
      l.length := by
  induction l with
  | nil => rfl
  | cons a rest ih =>
    cases h : Watch.respondTo s a.2 with
    | none =>
      simp only [List.filter_cons, List.filterMap_cons, h, Option.isNone_none, if_true,
        Option.map_none', List.length_cons]
      omega
    | some r =>
      simp only [List.filter_cons, List.filterMap_cons, h, Option.isNone_some,
        Bool.false_eq_true, if_false, Option.map_some', List.length_cons]
      omega

/-- The cache state of the counterexample to the literal reading of C4:
group `node` holds the sample snapshot and one pending endpoint watch whose
requested name (`none`) matches no resource. -/
def counterexampleCache : SnapshotCache :=
  ⟨[("node", ⟨some sampleSnapshot, [(0, ⟨ResponseType.EndpointType, ["none"], ""⟩)]⟩)], 1⟩

/-- C4 counterexample: a `SetSnapshot` that changes exactly the endpoint
category's version (every other category's collection is untouched) does
NOT resolve the pending endpoint watch — the delivery list is empty and the
watch remains parked — because its requested name matches nothing, refuting
the claim that such a `SetSnapshot` resolves exactly the pending watches on
the changed category. -/
theorem setSnapshot_one_category_counterexample :
    counterexampleCache.GetSnapshot "node" = some sampleSnapshot ∧
    sampleSnapshotY.Clusters = sampleSnapshot.Clusters ∧
    sampleSnapshotY.Routes = sampleSnapshot.Routes ∧
    sampleSnapshotY.Listeners = sampleSnapshot.Listeners ∧
    sampleSnapshotY.Secrets = sampleSnapshot.Secrets ∧
    sampleSnapshotY.Runtimes = sampleSnapshot.Runtimes ∧
    sampleSnapshotY.GetVersion ResponseType.EndpointType ≠
      sampleSnapshot.GetVersion ResponseType.EndpointType ∧
    ((0 : Nat), (⟨ResponseType.EndpointType, ["none"], ""⟩ : Watch)) ∈
      counterexampleCache.pendingWatches "node" ∧
    (counterexampleCache.SetSnapshot "node" sampleSnapshotY).2 = [] ∧
    ((0 : Nat), (⟨ResponseType.EndpointType, ["none"], ""⟩ : Watch)) ∈
      (counterexampleCache.SetSnapshot "node" sampleSnapshotY).1.pendingWatches "node" := by
  decide

/-- C4 (amended): a `SetSnapshot` whose new snapshot agrees with the old
one on every category but `t` resolves exactly those pending watches for
which the resolution rule fires against the new snapshot — all of them
watches on `t`, each delivered a response for `t` at the new version —
while every pending watch on an unchanged category (and any non-firing
watch on `t`) remains parked unchanged, and the pending count reported by
`GetStatusInfo` drops by exactly the number of watches resolved. -/
theorem setSnapshot_one_category_resolves_firing_watches
    (c : SnapshotCache) (key : String) (t : ResponseType) (sOld sNew : Snapshot)
    (_hs : c.GetSnapshot key = some sOld)
    (hagree : ∀ u, u ≠ t → sNew.GetResources u = sOld.GetResources u)
    (hpend : ∀ iw ∈ c.pendingWatches key, iw.2.typ ≠ t → Watch.respondTo sOld iw.2 = none) :
    (c.SetSnapshot key sNew).1.pendingWatches key =
      (c.pendingWatches key).filter (fun iw => (Watch.respondTo sNew iw.2).isNone) ∧
    (∀ iw ∈ c.pendingWatches key, iw.2.typ ≠ t →
      iw ∈ (c.SetSnapshot key sNew).1.pendingWatches key) ∧
    (∀ p ∈ (c.SetSnapshot key sNew).2, ∃ w : Watch,
      (p.1, w) ∈ c.pendingWatches key ∧ w.typ = t ∧ Watch.respondTo sNew w = some p.2 ∧
      p.2.typ = t ∧ p.2.Version = sNew.GetVersion t) ∧
    (c.SetSnapshot key sNew).1.GetStatusInfo key =
      some ⟨(c.pendingWatches key).length - (c.SetSnapshot key sNew).2.length⟩ := by
  refine ⟨pendingWatches_setSnapshot c key sNew, ?_, ?_, ?_⟩
  · intro iw hm ht
    apply mem_pending_setSnapshot c key iw sNew hm
    rw [respondTo_congr sNew sOld iw.2 (hagree iw.2.typ ht)]
    exact hpend iw hm ht
  · intro p hp
    rw [delivered_setSnapshot] at hp
    obtain ⟨iw, hm, heq⟩ := List.mem_filterMap.mp hp
    obtain ⟨r', hr', heq'⟩ := Option.map_eq_some'.mp heq
    have htyp : iw.2.typ = t := by
      by_contra hne
      rw [respondTo_congr sNew sOld iw.2 (hagree iw.2.typ hne), hpend iw hm hne] at hr'
      exact Option.noConfusion hr'
    have hfields := respond_some_fields sNew iw.2.typ iw.2.resourceNames iw.2.knownVersion r' hr'
    have hfst : iw.1 = p.1 := congrArg Prod.fst heq'
    have hsnd : r' = p.2 := congrArg Prod.snd heq'
    refine ⟨iw.2, ?_, htyp, ?_, ?_, ?_⟩
    · rw [← hfst]
      exact hm
    · rw [← hsnd]
      exact hr'
    · rw [← hsnd, hfields.1, htyp]
    · rw [← hsnd, hfields.2, htyp]
  · have hsum := length_remaining_add_delivered (c.pendingWatches key) sNew
    have hdel : (c.SetSnapshot key sNew).2 =
        (c.pendingWatches key).filterMap
          (fun iw => (Watch.respondTo sNew iw.2).map (fun r => (iw.1, r))) :=
      delivered_setSnapshot c key sNew
    have hinfo : (c.SetSnapshot key sNew).1.GetStatusInfo key =
        some ⟨((c.pendingWatches key).filter
          (fun iw => (Watch.respondTo sNew iw.2).isNone)).length⟩ := by
      simp only [SnapshotCache.SetSnapshot, SnapshotCache.GetStatusInfo, lookup_setGroup_self,
        SnapshotCache.pendingWatches]
    rw [hinfo, hdel]
    simp only [Option.some.injEq, StatusInfo.mk.injEq]
    omega

/-- The cache state used to witness the amended C4: two pending watches on
`node`, one on endpoints (name `cluster0`, known version `x`) and one on
clusters (all names, known version `x`). -/
def sampleWatchedCache : SnapshotCache :=
  ⟨[("node", ⟨some sampleSnapshot,
      [(0, ⟨ResponseType.EndpointType, ["cluster0"], "x"⟩),
       (1, ⟨ResponseType.ClusterType, [], "x"⟩)]⟩)], 2⟩

theorem setSnapshot_one_category_resolves_firing_watches_witness :
    (sampleWatchedCache.SetSnapshot "node" sampleSnapshotY).1.GetStatusInfo "node" =
      some ⟨(sampleWatchedCache.pendingWatches "node").length -
        (sampleWatchedCache.SetSnapshot "node" sampleSnapshotY).2.length⟩ := by
  have h := setSnapshot_one_category_resolves_firing_watches sampleWatchedCache "node"
    ResponseType.EndpointType sampleSnapshot sampleSnapshotY (by decide) (by decide) (by decide)
  exact h.2.2.2

/-- C10: `WithVersion` returns the receiver itself when the category
already carries the requested version; otherwise it returns a snapshot in
which only that category's version is replaced — the category keeps the
same item list and every other category keeps the same collection value —
while the original snapshot, being immutable, is unchanged. -/
theorem withVersion_spec (s : Snapshot) (typ : ResponseType) (v : String) :
    (s.GetVersion typ = v → SampleSnapshot.WithVersion s typ v = s) ∧
    (s.GetVersion typ ≠ v →
      (SampleSnapshot.WithVersion s typ v).GetVersion typ = v ∧
      ((SampleSnapshot.WithVersion s typ v).GetResources typ).Items =
        (s.GetResources typ).Items ∧
      ∀ u, u ≠ typ →
        (SampleSnapshot.WithVersion s typ v).GetResources u = s.GetResources u) := by
  constructor
  · intro h
    simp [SampleSnapshot.WithVersion, h]
  · intro h
    unfold SampleSnapshot.WithVersion
    rw [if_neg h]
    cases typ <;>
      refine ⟨rfl, rfl, ?_⟩ <;>
      (intro u hu
       cases u <;> simp_all [Snapshot.GetResources])

theorem withVersion_spec_witness :
    SampleSnapshot.WithVersion sampleSnapshot ResponseType.EndpointType "x" = sampleSnapshot ∧
    (SampleSnapshot.WithVersion sampleSnapshot ResponseType.EndpointType "y").GetVersion
      ResponseType.EndpointType = "y" := by
  have h1 := (withVersion_spec sampleSnapshot ResponseType.EndpointType "x").1 (by decide)
  have h2 := (withVersion_spec sampleSnapshot ResponseType.EndpointType "y").2 (by decide)
  exact ⟨h1, h2.1⟩
